/-
  Verification of the autobot scheduling/dialogue engine against its
  natural-language specification.

  Shallow embedding conventions:
  * JavaScript strings are Lean `String`s (the repository only manipulates
    ASCII message text and slot labels).
  * JavaScript `Date` instants are modelled as `Nat` milliseconds since the
    Unix epoch (all instants the code handles are ≥ 1970).  `toISOString` is
    injective, so equality of ISO strings in the source is equality of these
    timestamps.
  * Nullable / possibly-`undefined` fields are `Option _`; JavaScript
    truthiness of a nullable string (`!x` is true for `null`, `undefined`
    and `""`) is modelled by `jsTruthyStr`.
  * `Intl.DateTimeFormat`-based timezone conversions are modelled by an
    abstract parameter record `TZModel`; `utcTZ` instantiates it exactly as
    the source computes for a zero-offset (UTC) timezone configuration.
-/
import Mathlib

namespace Autobot

/-! ## JavaScript string primitives -/

/-- JS `String.prototype.includes(sub)` on character lists. -/
def listContainsSub (hay needle : List Char) : Bool :=
  match hay with
  | [] => needle.isEmpty
  | _ :: t => needle.isPrefixOf hay || listContainsSub t needle

/-- JS `s.includes(pat)`. -/
def containsSubstr (s pat : String) : Bool :=
  listContainsSub s.toList pat.toList

/-- JS regex word character (`\w`): `[A-Za-z0-9_]`. -/
def wordChar (c : Char) : Bool :=
  c.isAlpha && c.toNat < 128 || c.isDigit || c = '_'

/-- ASCII digit test (JS `\d`). -/
def jsDigit (c : Char) : Bool :=
  c.isDigit

/-- JS whitespace (`\s`) restricted to the ASCII range that occurs in
    message text. -/
def jsSpace (c : Char) : Bool :=
  c.isWhitespace

/-- JS `String.prototype.toLowerCase` (character-wise, as in the source's
    ASCII message text). -/
def jsToLower (s : String) : String :=
  String.mk (s.toList.map Char.toLower)

/-- JS `String.prototype.trim`. -/
def jsTrim (s : String) : String :=
  String.mk (((s.toList.dropWhile jsSpace).reverse.dropWhile jsSpace).reverse)

/-- Emptiness of a JS string (`s === ''`, equally falsiness of `s`). -/
def jsIsEmpty (s : String) : Bool :=
  s.toList.isEmpty

/-- JS `text.toLowerCase().trim()`, the normalisation both the date parser
    and the slot matcher apply to inbound text. -/
def clean (s : String) : String :=
  jsTrim (jsToLower s)

/-! ## Context tracker (src/meta-bot/src/context.ts) -/

/-- JS day-name list used throughout the source (Sunday-first order). -/
def dayNamesList : List String :=
  ["sunday", "monday", "tuesday", "wednesday", "thursday", "friday", "saturday"]

/-- An offerable appointment window (src/meta-bot/src/types).  The
    `startISO`/`endISO` instants are epoch milliseconds (see header). -/
structure Slot where
  label : String
  startISO : Nat
  endISO : Nat
deriving DecidableEq, Repr

/-- `extractDayName` from context.ts: first weekday name contained in the
    lowercased label, `""` if none. -/
def extractDayName (slotLabel : String) : String :=
  let normalized := jsToLower slotLabel
  match dayNamesList.find? (fun day => containsSubstr normalized day) with
  | some day => day
  | none => ""

/-- `getDaysFromSlots` from context.ts. -/
def getDaysFromSlots (slots : List Slot) : List String :=
  (slots.map (fun s => extractDayName s.label)).filter (fun d => d ≠ "")

/-- The conversation context bag (the fields the core reads/writes). -/
structure ConvoContext where
  slots : List Slot := []
  offeredDays : List String := []
  attemptCount : Option Nat := none
  lastIntent : Option String := none
  requestedDay : Option String := none
  address : Option String := none
  phone : Option String := none
  collectStep : Option String := none
deriving DecidableEq, Repr

/-- JS `[...new Set(l)]`: deduplicate keeping first occurrences. -/
def dedupFirstAux (seen : List String) : List String → List String
  | [] => []
  | x :: t =>
    if seen.contains x then dedupFirstAux seen t
    else x :: dedupFirstAux (x :: seen) t

/-- JS `[...new Set(l)]`. -/
def dedupFirst (l : List String) : List String :=
  dedupFirstAux [] l

/-- `trackOfferedSlots` from context.ts. -/
def trackOfferedSlots (context : ConvoContext) (slots : List Slot)
    (isSuccessfulMatch : Bool) : ConvoContext :=
  let newDays := getDaysFromSlots slots
  let existingDays := context.offeredDays
  let allDays := dedupFirst (existingDays ++ newDays)
  let newAttemptCount :=
    if isSuccessfulMatch then 0 else (context.attemptCount.getD 0) + 1
  { context with
    slots := slots
    offeredDays := allDays
    attemptCount := some newAttemptCount }

/-- `shouldTriggerGracefulDegradation` from context.ts. -/
def shouldTriggerGracefulDegradation (context : ConvoContext) : Bool :=
  context.attemptCount.getD 0 ≥ 3

/-- `shouldAskOpenEnded` from context.ts. -/
def shouldAskOpenEnded (context : ConvoContext) : Bool :=
  context.attemptCount.getD 0 ≥ 2

/-- `resetAttemptCount` from context.ts. -/
def resetAttemptCount (context : ConvoContext) : ConvoContext :=
  { context with attemptCount := some 0 }

/-! ## Regex scanners used by the date parser (src/meta-bot/src/dateParser.ts)

JavaScript regex tests are modelled by explicit scanners over character
lists.  A scanner walks every start position (carrying the previous
character for `\b` word boundaries) and applies a per-position matcher that
mirrors the pattern, including the backtracking of greedy `\d{1,2}`. -/

/-- `\b` holds before the current position. -/
def boundaryBefore (prev : Option Char) : Bool :=
  match prev with
  | none => true
  | some c => !wordChar c

/-- `\b` holds after a consumed prefix when the remaining text starts with a
    non-word character (or is empty). -/
def boundaryAfterList (l : List Char) : Bool :=
  match l with
  | [] => true
  | c :: _ => !wordChar c

/-- Generic scan: does `tryAt` succeed at some start position? -/
def scanBool (tryAt : Option Char → List Char → Bool) :
    Option Char → List Char → Bool
  | _, [] => false
  | prev, c :: t => tryAt prev (c :: t) || scanBool tryAt (some c) t

/-- Generic scan returning the leftmost capture. -/
def scanCapture (tryAt : Option Char → List Char → Option Nat) :
    Option Char → List Char → Option Nat
  | _, [] => none
  | prev, c :: t =>
    match tryAt prev (c :: t) with
    | some v => some v
    | none => scanCapture tryAt (some c) t

/-- Per-position matcher for `/\b(am|pm)\b/i` (input already lowercased). -/
def ampmAt (prev : Option Char) (l : List Char) : Bool :=
  boundaryBefore prev &&
  match l with
  | c1 :: c2 :: rest =>
    (c1 = 'a' || c1 = 'p') && c2 = 'm' && boundaryAfterList rest
  | _ => false

/-- Per-position matcher for `/\b\d{1,2}:\d{2}/` (e.g. `12:00`, `3:30`).
    The greedy `\d{1,2}` backtracks from two digits to one. -/
def hhmmAt (prev : Option Char) (l : List Char) : Bool :=
  boundaryBefore prev &&
  ((match l with
    | a :: b :: c :: d :: e :: _ =>
      jsDigit a && jsDigit b && c = ':' && jsDigit d && jsDigit e
    | _ => false) ||
   (match l with
    | a :: b :: c :: d :: _ =>
      jsDigit a && b = ':' && jsDigit c && jsDigit d
    | _ => false))

/-- `\d{1,2}\b` with greedy backtracking: two digits then a boundary, or one
    digit whose successor is a non-word character. -/
def digits12Boundary (l : List Char) : Bool :=
  match l with
  | [a] => jsDigit a
  | a :: b :: rest =>
    jsDigit a && ((jsDigit b && boundaryAfterList rest) || !wordChar b)
  | [] => false

/-- Drop the maximal run of whitespace, requiring at least one (`\s+`). -/
def dropSpaces1 (l : List Char) : Option (List Char) :=
  match l with
  | c :: t => if jsSpace c then some (t.dropWhile jsSpace) else none
  | [] => none

/-- Per-position matcher for `/\bat\s+\d{1,2}\b/i` (e.g. "at 12", "at 3").
    `\s+` is greedy and cannot usefully backtrack (a digit is not a space). -/
def atDigitsAt (prev : Option Char) (l : List Char) : Bool :=
  boundaryBefore prev &&
  match l with
  | c1 :: c2 :: rest =>
    c1 = 'a' && c2 = 't' &&
    (match dropSpaces1 rest with
     | some rest2 => digits12Boundary rest2
     | none => false)
  | _ => false

/-- The three time-of-day indicators checked by `extractRequestedDate`
    before its explicit-date branch. -/
def hasTimeIndicator (cleaned : String) : Bool :=
  scanBool ampmAt none cleaned.toList ||
  scanBool hhmmAt none cleaned.toList ||
  scanBool atDigitsAt none cleaned.toList

/-- Decimal value of an ASCII digit. -/
def digitVal (c : Char) : Nat :=
  c.toNat - 48

/-- `(st|nd|rd|th)\b` (input already lowercased). -/
def ordinalSuffixAt (l : List Char) : Bool :=
  match l with
  | c1 :: c2 :: rest =>
    ((c1 = 's' && c2 = 't') || (c1 = 'n' && c2 = 'd') ||
     (c1 = 'r' && c2 = 'd') || (c1 = 't' && c2 = 'h')) &&
    boundaryAfterList rest
  | _ => false

/-- `(\d{1,2})(st|nd|rd|th)\b` with greedy backtracking, returning the
    captured day number.  (After two digits fail, the one-digit retry needs
    the suffix to start at a digit, which never matches.) -/
def digitsOrdinal (l : List Char) : Option Nat :=
  match l with
  | a :: b :: rest =>
    if jsDigit a && jsDigit b then
      if ordinalSuffixAt rest then some (10 * digitVal a + digitVal b) else none
    else if jsDigit a then
      if ordinalSuffixAt (b :: rest) then some (digitVal a) else none
    else none
  | _ => none

/-- Per-position matcher for `/\b(?:the\s+)?(\d{1,2})(st|nd|rd|th)\b/`:
    the optional `the\s+` alternative is tried first. -/
def ordinalAt (prev : Option Char) (l : List Char) : Option Nat :=
  if boundaryBefore prev then
    match l with
    | c1 :: c2 :: c3 :: rest =>
      if c1 = 't' && c2 = 'h' && c3 = 'e' then
        match dropSpaces1 rest with
        | some rest2 => digitsOrdinal rest2
        | none => digitsOrdinal l
      else digitsOrdinal l
    | _ => digitsOrdinal l
  else none

/-- First match of `/\b(?:the\s+)?(\d{1,2})(st|nd|rd|th)\b/` (day number). -/
def ordinalDayNumber (cleaned : String) : Option Nat :=
  scanCapture ordinalAt none cleaned.toList

/-- Per-position matcher for `/\b(\d{1,2})\b/`, returning the number. -/
def boundedNumberAt (prev : Option Char) (l : List Char) : Option Nat :=
  if boundaryBefore prev then
    match l with
    | [a] => if jsDigit a then some (digitVal a) else none
    | a :: b :: rest =>
      if jsDigit a then
        if jsDigit b && boundaryAfterList rest then
          some (10 * digitVal a + digitVal b)
        else if !wordChar b then some (digitVal a)
        else none
      else none
    | [] => none
  else none

/-- First match of `/\b(\d{1,2})\b/`. -/
def firstBoundedNumber (cleaned : String) : Option Nat :=
  scanCapture boundedNumberAt none cleaned.toList

/-! ## Calendar arithmetic (JavaScript `Date`, UTC) -/

def msPerDay : Nat := 86400000

/-- `Date.prototype.getUTCDay` (epoch day 0 = Thursday = 4). -/
def getUTCDay (t : Nat) : Nat :=
  (t / msPerDay + 4) % 7

/-- `d.setUTCDate(d.getUTCDate() + k); d.setUTCHours(12,0,0,0)`:
    move `k` days forward and pin the time of day to 12:00:00.000 UTC. -/
def setNoonPlusDays (t k : Nat) : Nat :=
  (t / msPerDay + k) * msPerDay + 43200000

/-- A civil date as produced by `Intl.DateTimeFormat(...).formatToParts`. -/
structure Ymd where
  y : Nat
  m : Nat
  d : Nat
deriving DecidableEq, Repr

/-- Days since 1970-01-01 of a civil date (Howard Hinnant's algorithm);
    months beyond 12 and days beyond the month length are normalised the way
    `Date.UTC` normalises them.  Only years ≥ 1970 arise in this model. -/
def daysFromCivil (y m d : Nat) : Nat :=
  let mm := (m - 1) % 12 + 1
  let yy := y + (m - 1) / 12
  let yAdj := if mm ≤ 2 then yy - 1 else yy
  let era := yAdj / 400
  let yoe := yAdj % 400
  let mp := if mm > 2 then mm - 3 else mm + 9
  let doy := (153 * mp + 2) / 5 + (d - 1)
  let doe := yoe * 365 + yoe / 4 - yoe / 100 + doy
  era * 146097 + doe - 719468

/-- `Date.UTC(y, m-1, d, hh, mm)` in epoch milliseconds. -/
def utcMk (y m d hh mm : Nat) : Nat :=
  daysFromCivil y m d * msPerDay + hh * 3600000 + mm * 60000

/-- Civil date of an epoch-day count (inverse of `daysFromCivil`). -/
def civilFromDays (z : Nat) : Ymd :=
  let z' := z + 719468
  let era := z' / 146097
  let doe := z' % 146097
  let yoe := (doe - doe / 1460 + doe / 36524 - doe / 146096) / 365
  let y := yoe + era * 400
  let doy := doe - (365 * yoe + yoe / 4 - yoe / 100)
  let mp := (5 * doy + 2) / 153
  let d := doy - (153 * mp + 2) / 5 + 1
  let m := if mp < 10 then mp + 3 else mp - 9
  ⟨if m ≤ 2 then y + 1 else y, m, d⟩

/-! ## Date/time reference extractor (src/meta-bot/src/dateParser.ts) -/

/-- The day-name → weekday-number map of `parseRelativeDate`
    (object-literal insertion order). -/
def dayNamePairs : List (String × Nat) :=
  [("sunday", 0), ("monday", 1), ("tuesday", 2), ("wednesday", 3),
   ("thursday", 4), ("friday", 5), ("saturday", 6)]

/-- Month-name list of `extractRequestedDate`/`parseDateNumber`. -/
def monthNamesList : List String :=
  ["january", "february", "march", "april", "may", "june",
   "july", "august", "september", "october", "november", "december"]

/-- `parseRelativeDate(text, now, timeZone)`: relative expressions
    ("tomorrow", "today", weekday names with optional `next`/`this`).
    The `timeZone` argument is unused by the source as well. -/
def parseRelativeDate (text : String) (now : Nat) (timeZone : String) :
    Option Nat :=
  let _ := timeZone
  let cleaned := clean text
  let currentDayOfWeek := getUTCDay now
  if containsSubstr cleaned "tomorrow" then some (setNoonPlusDays now 1)
  else if containsSubstr cleaned "today" then some (setNoonPlusDays now 0)
  else
    match dayNamePairs.find? (fun p => containsSubstr cleaned p.1) with
    | none => none
    | some p =>
      let targetDay := p.2
      let hasNext := containsSubstr cleaned "next"
      let hasThis := containsSubstr cleaned "this"
      let base := (targetDay + 7 - currentDayOfWeek) % 7
      let daysToAdd :=
        if hasNext then
          let d0 := if base = 0 then 7 else base
          if d0 < 7 then d0 + 7 else d0
        else if hasThis then base
        else base
      some (setNoonPlusDays now daysToAdd)

/-- `parseDateNumber(dayOfMonth, text, now, timeZone)`.  The current civil
    year/month in the configured timezone (obtained in the source through
    `Intl.DateTimeFormat`) is supplied by the abstract parameter `tzYmd`. -/
def parseDateNumber (tzYmd : Nat → Ymd) (dayOfMonth : Nat) (text : String)
    (now : Nat) : Option Nat :=
  let parts := tzYmd now
  let year := parts.y
  let month := parts.m
  let targetMonth :=
    match monthNamesList.enum.find? (fun p => containsSubstr text p.2) with
    | some p => p.1 + 1
    | none => month
  let candidate := utcMk year targetMonth dayOfMonth 12 0
  if candidate < now then some (utcMk year (targetMonth + 1) dayOfMonth 12 0)
  else some candidate

/-- The month-name loop of `extractRequestedDate` ("February 12"):
    a month without a usable number falls through to later months. -/
def monthNameLoop (tzYmd : Nat → Ymd) (cleaned : String) (now : Nat) :
    List String → Option Nat
  | [] => none
  | mname :: rest =>
    if containsSubstr cleaned mname then
      match firstBoundedNumber cleaned with
      | some n =>
        if 1 ≤ n && n ≤ 31 then parseDateNumber tzYmd n cleaned now
        else monthNameLoop tzYmd cleaned now rest
      | none => monthNameLoop tzYmd cleaned now rest
    else monthNameLoop tzYmd cleaned now rest

/-- The day-name loop of `extractRequestedDate` ("Tuesday 12"). -/
def dayNameNumberLoop (tzYmd : Nat → Ymd) (cleaned : String) (now : Nat) :
    List String → Option Nat
  | [] => none
  | dname :: rest =>
    if containsSubstr cleaned dname then
      match firstBoundedNumber cleaned with
      | some n =>
        if 1 ≤ n && n ≤ 31 then parseDateNumber tzYmd n cleaned now
        else dayNameNumberLoop tzYmd cleaned now rest
      | none => dayNameNumberLoop tzYmd cleaned now rest
    else dayNameNumberLoop tzYmd cleaned now rest

/-- `extractRequestedDate(text, now, timeZone)`: relative expressions first,
    then — guarded by the time-of-day indicators — explicit dates. -/
def extractRequestedDate (tzYmd : Nat → Ymd) (text : String) (now : Nat)
    (timeZone : String) : Option Nat :=
  let cleaned := clean text
  match parseRelativeDate cleaned now timeZone with
  | some relativeDateResult => some relativeDateResult
  | none =>
    if hasTimeIndicator cleaned then none
    else
      match ordinalDayNumber cleaned with
      | some dayOfMonth =>
        if 1 ≤ dayOfMonth && dayOfMonth ≤ 31 then
          parseDateNumber tzYmd dayOfMonth cleaned now
        else
          match monthNameLoop tzYmd cleaned now monthNamesList with
          | some r => some r
          | none => dayNameNumberLoop tzYmd cleaned now dayNamesList
      | none =>
        match monthNameLoop tzYmd cleaned now monthNamesList with
        | some r => some r
        | none => dayNameNumberLoop tzYmd cleaned now dayNamesList

/-! ## Slot matcher (`tryMatchSlot`, conversation-flow module) -/

/-- Result of `tryMatchSlot`; fields absent in the source's object literals
    are the defaults (`slot` absent ↦ `none`, `requiresChoice` absent ↦
    `false`). -/
structure SlotMatchResult where
  matched : Bool
  slot : Option Slot := none
  requiresChoice : Bool := false
deriving DecidableEq, Repr

/-- The bare-confirmation word list of `tryMatchSlot`. -/
def confirmWords : List String :=
  ["yes", "yeah", "yep", "sure", "ok", "okay", "sounds good",
   "that works", "perfect", "great"]

/-- `confirmWords.some(word => normalized === word || normalized.includes(word))`. -/
def isConfirmWord (normalized : String) : Bool :=
  confirmWords.any (fun word => normalized = word || containsSubstr normalized word)

/-- A match of `/(\d{1,2}):(\d{2})\s*(am|pm)/i` (equally of the uncaptured
    `/(\d{1,2}:\d{2}\s*(?:am|pm))/i`): the full captured substring, the hour
    value, and the two minute digits. -/
structure TimeCap where
  cap : List Char
  hour : Nat
  minutes : List Char
deriving DecidableEq, Repr

/-- Tail `:\d{2}\s*(am|pm)` (case-insensitive) after the hour digits. -/
def timeTailAt (hds : List Char) (hour : Nat) (l : List Char) : Option TimeCap :=
  match l with
  | c :: d1 :: d2 :: rest =>
    if c = ':' && jsDigit d1 && jsDigit d2 then
      let spaces := rest.takeWhile jsSpace
      let rest2 := rest.dropWhile jsSpace
      match rest2 with
      | p :: m :: _ =>
        if (p.toLower = 'a' || p.toLower = 'p') && m.toLower = 'm' then
          some ⟨hds ++ c :: d1 :: d2 :: (spaces ++ [p, m]), hour, [d1, d2]⟩
        else none
      | _ => none
    else none
  | _ => none

/-- Per-position matcher for the time pattern.  After two leading digits a
    failing tail cannot backtrack usefully: the one-digit retry would need
    `:` where a digit stands. -/
def timeAt (l : List Char) : Option TimeCap :=
  match l with
  | a :: b :: rest =>
    if jsDigit a && jsDigit b then
      timeTailAt [a, b] (10 * digitVal a + digitVal b) rest
    else if jsDigit a then
      timeTailAt [a] (digitVal a) (b :: rest)
    else none
  | _ => none

/-- Leftmost match of the time pattern. -/
def firstTime : List Char → Option TimeCap
  | [] => none
  | c :: t =>
    match timeAt (c :: t) with
    | some tc => some tc
    | none => firstTime t

/-- `label.match(/(\d{1,2}:\d{2}\s*(?:AM|PM))/i)?.[1] || ''` — the displayed
    time portion of a slot label, used to detect deliberate duplicates. -/
def labelDisplayedTime (label : String) : String :=
  match firstTime label.toList with
  | some tc => String.mk tc.cap
  | none => ""

/-- The confirmation-word branch of `tryMatchSlot` (entered only with a
    nonempty slot list). -/
def confirmStage (slots : List Slot) : SlotMatchResult :=
  match slots with
  | [s] => { matched := true, slot := some s }
  | s1 :: s2 :: _ =>
    if labelDisplayedTime s1.label = labelDisplayedTime s2.label then
      { matched := true, slot := some s1 }
    else
      { matched := false, requiresChoice := true }
  | [] => { matched := false }

/-- The day-name stage: for each weekday name (Sunday-first) contained in
    the normalized text, the first slot whose label contains that name. -/
def dayNameStage : List String → String → List Slot → Option Slot
  | [], _, _ => none
  | dayName :: rest, normalized, slots =>
    if containsSubstr normalized dayName then
      match slots.find? (fun slot => containsSubstr (jsToLower slot.label) dayName) with
      | some slot => some slot
      | none => dayNameStage rest normalized slots
    else dayNameStage rest normalized slots

/-- `normalized.replace(/\s/g, '')`. -/
def stripSpaces (s : String) : String :=
  String.mk (s.toList.filter (fun c => !jsSpace c))

/-- First `/(\d{1,2}):(\d{2})\s*(am|pm)/i` match in a slot's lowercased
    label, as (hour, minute-digits). -/
def slotTimeHMOf (slot : Slot) : Option (Nat × List Char) :=
  (firstTime (jsToLower slot.label).toList).map (fun tc => (tc.hour, tc.minutes))

/-- `^\d{1,2}:\d{2}$` on the space-stripped user text, with the parsed hour
    and the minute digits. -/
def bareHM? (l : List Char) : Option (Nat × List Char) :=
  match l with
  | [a, c, d1, d2] =>
    if jsDigit a && c = ':' && jsDigit d1 && jsDigit d2 then
      some (digitVal a, [d1, d2])
    else none
  | [a, b, c, d1, d2] =>
    if jsDigit a && jsDigit b && c = ':' && jsDigit d1 && jsDigit d2 then
      some (10 * digitVal a + digitVal b, [d1, d2])
    else none
  | _ => none

/-- `^\d{1,2}$` with the parsed value. -/
def bareHour? (l : List Char) : Option Nat :=
  match l with
  | [a] => if jsDigit a then some (digitVal a) else none
  | [a, b] => if jsDigit a && jsDigit b then some (10 * digitVal a + digitVal b) else none
  | _ => none

/-- `"3pm" → "3:00pm"` (`^\d{1,2}(am|pm)$` rewrite), when applicable. -/
def rewriteAmPm (l : List Char) : Option (List Char) :=
  match l with
  | [a, p, m] =>
    if jsDigit a && (p = 'a' || p = 'p') && m = 'm' then
      some [a, ':', '0', '0', p, m]
    else none
  | [a, b, p, m] =>
    if jsDigit a && jsDigit b && (p = 'a' || p = 'p') && m = 'm' then
      some [a, b, ':', '0', '0', p, m]
    else none
  | _ => none

/-- The sequential `userTime` rewrites (`3pm`, `noon`, `midnight`). -/
def rewriteUserTime (userTime : String) : String :=
  let t1 :=
    match rewriteAmPm userTime.toList with
    | some l => String.mk l
    | none => userTime
  if t1 = "noon" then "12:00pm"
  else if t1 = "midnight" then "12:00am"
  else t1

/-- `slotLower.match(/^(\w+day)/)`: the greedy `\w+` takes the leading run
    of word characters and backtracks to the last position where `day`
    completes inside that run (at least one `\w` must precede it). -/
def leadingWordDay (l : List Char) : Option (List Char) :=
  let w := l.takeWhile wordChar
  let positions := (List.range (w.length + 1)).filter
    (fun j => 1 ≤ j && j + 3 ≤ w.length && (w.drop j).take 3 = ['d', 'a', 'y'])
  match positions.max? with
  | some j => some (w.take (j + 3))
  | none => none

/-- The stages of `tryMatchSlot` after the confirmation and "1"/"2" checks:
    day name, exact label, `HH:MM`, bare hour, rewritten time, day+time. -/
def laterStages (normalized : String) (slots : List Slot) : SlotMatchResult :=
  match dayNameStage dayNamesList normalized slots with
  | some slot => { matched := true, slot := some slot }
  | none =>
  match slots.find? (fun slot => normalized = jsToLower slot.label) with
  | some slot => { matched := true, slot := some slot }
  | none =>
  let userTime := stripSpaces normalized
  let hmStage :=
    match bareHM? userTime.toList with
    | some (hour, minutes) =>
      if 1 ≤ hour && hour ≤ 12 then
        slots.find? (fun slot =>
          match slotTimeHMOf slot with
          | some hm => hm.1 = hour && hm.2 = minutes
          | none => false)
      else none
    | none => none
  match hmStage with
  | some slot => { matched := true, slot := some slot }
  | none =>
  let hourStage :=
    match bareHour? userTime.toList with
    | some hour =>
      if 1 ≤ hour && hour ≤ 12 then
        slots.find? (fun slot =>
          match slotTimeHMOf slot with
          | some hm => hm.1 = hour && hm.2 = ['0', '0']
          | none => false)
      else none
    | none => none
  match hourStage with
  | some slot => { matched := true, slot := some slot }
  | none =>
  let userTime2 := rewriteUserTime userTime
  let genericStage :=
    slots.find? (fun slot =>
      match firstTime (jsToLower slot.label).toList with
      | some tc =>
        let slotTime := jsToLower (String.mk (tc.cap.filter (fun c => !jsSpace c)))
        userTime2 = slotTime
      | none => false)
  match genericStage with
  | some slot => { matched := true, slot := some slot }
  | none =>
  let dayTimeStage :=
    slots.find? (fun slot =>
      let slotLower := jsToLower slot.label
      match leadingWordDay slotLower.toList, firstTime slotLower.toList with
      | some dayCap, some tc =>
        let day := String.mk dayCap
        let time := String.mk (tc.cap.filter (fun c => !jsSpace c))
        containsSubstr normalized day &&
          containsSubstr (stripSpaces normalized) (jsToLower time)
      | _, _ => false)
  match dayTimeStage with
  | some slot => { matched := true, slot := some slot }
  | none => { matched := false }

/-- `tryMatchSlot(text, slots)` (conversation-flow module). -/
def tryMatchSlot (text : String) (slots : List Slot) : SlotMatchResult :=
  if slots.isEmpty then { matched := false }
  else
    let normalized := clean text
    if isConfirmWord normalized then confirmStage slots
    else if normalized = "1" && 1 ≤ slots.length then
      { matched := true, slot := slots.head? }
    else if normalized = "2" && 2 ≤ slots.length then
      { matched := true, slot := slots[1]? }
    else laterStages normalized slots

/-! ## Slot generator (src/meta-bot/src/google.ts)

The `Intl.DateTimeFormat`-based timezone conversions (`ymdInTZ`,
`makeDateInTZ`, the weekday formatter and `formatSlotLabel`) are collected
into an abstract parameter record; `utcTZ` below instantiates them exactly
as the source computes when the configured timezone has zero offset. -/

structure TZModel where
  ymd : Nat → Ymd
  mkDate : Nat → Nat → Nat → Nat → Nat → Nat
  dayNameOf : Nat → String
  labelOf : Nat → String

/-- Half-open interval overlap (`overlapsDates`). -/
def overlapsDates (s1 e1 s2 e2 : Nat) : Bool :=
  s1 < e2 && s2 < e1

/-- `dedupeSlots`: de-duplicate by the `start|end` key, keeping first
    occurrences (the `Set` of keys is the `seen` accumulator). -/
def dedupeSlotsAux (seen : List (Nat × Nat)) : List Slot → List Slot
  | [] => []
  | s :: t =>
    if seen.contains (s.startISO, s.endISO) then dedupeSlotsAux seen t
    else s :: dedupeSlotsAux ((s.startISO, s.endISO) :: seen) t

/-- `dedupeSlots(slots)`. -/
def dedupeSlots (slots : List Slot) : List Slot :=
  dedupeSlotsAux [] slots

/-- The two fixed windows of one day (12:00–15:00 and 15:00–18:00 local),
    already filtered by `c.end > now` ("no past windows"). -/
def dayCandidates (tz : TZModel) (now dayMs : Nat) : List (Nat × Nat) :=
  let p := tz.ymd dayMs
  let s1 := tz.mkDate p.y p.m p.d 12 0
  let e1 := tz.mkDate p.y p.m p.d 15 0
  let s2 := tz.mkDate p.y p.m p.d 15 0
  let e2 := tz.mkDate p.y p.m p.d 18 0
  [(s1, e1), (s2, e2)].filter (fun c => now < c.2)

/-- The inner candidate loop: busy-overlap test, duplicate test against the
    accumulated output, and the `maxSlots` cap.  (The source's `break`
    statements only skip iterations whose guard would already refuse to add,
    so folding them into the guard leaves the result unchanged.) -/
def addCandidates (tz : TZModel) (busy : List (Nat × Nat)) (maxSlots : Nat) :
    List (Nat × Nat) → List Slot → List Slot
  | [], out => out
  | c :: rest, out =>
    let isBusy := busy.any (fun b => overlapsDates c.1 c.2 b.1 b.2)
    let slot : Slot := ⟨tz.labelOf c.1, c.1, c.2⟩
    let isDuplicate := out.any
      (fun s => s.startISO = slot.startISO && s.endISO = slot.endISO)
    let out' :=
      if !isBusy && !isDuplicate && out.length < maxSlots then out ++ [slot]
      else out
    addCandidates tz busy maxSlots rest out'

/-- The day loop of `generateTwoSlotsFixedWindows` over day indices. -/
def genDays (tz : TZModel) (busy : List (Nat × Nat)) (now rangeStart : Nat)
    (excludeDays : List String) (maxSlots : Nat) :
    List Nat → List Slot → List Slot
  | [], out => out
  | i :: rest, out =>
    let dayMs := rangeStart + i * msPerDay
    let dayName := tz.dayNameOf dayMs
    if excludeDays.contains dayName then
      genDays tz busy now rangeStart excludeDays maxSlots rest out
    else
      genDays tz busy now rangeStart excludeDays maxSlots rest
        (addCandidates tz busy maxSlots (dayCandidates tz now dayMs) out)

/-- `generateTwoSlotsFixedWindows(days, excludeDays, maxSlots, startOffset)`.
    `busy` is the free/busy collaborator's answer for the searched range and
    `now` the generation instant captured at the top of the function. -/
def generateTwoSlotsFixedWindows (tz : TZModel) (busy : List (Nat × Nat))
    (now : Nat) (days : Nat) (excludeDays : List String) (maxSlots : Nat)
    (startOffset : Nat) : List Slot :=
  let startYMD := tz.ymd now
  let rangeStart := tz.mkDate startYMD.y startYMD.m (startYMD.d + startOffset) 0 0
  dedupeSlots
    (genDays tz busy now rangeStart excludeDays maxSlots (List.range days) [])

/-- Capitalised weekday names in `getUTCDay` order (Intl `weekday: 'long'`). -/
def weekdayNamesCap : List String :=
  ["Sunday", "Monday", "Tuesday", "Wednesday", "Thursday", "Friday", "Saturday"]

/-- 12-hour clock hour (Intl `hour: 'numeric'`, `hour12` default). -/
def hour12 (h : Nat) : Nat :=
  (h + 11) % 12 + 1

/-- Two-digit minute rendering (Intl `minute: '2-digit'`). -/
def twoDigit (n : Nat) : String :=
  if n < 10 then "0" ++ toString n else toString n

/-- `formatSlotLabel` for a zero-offset timezone:
    `"<Weekday> at <h>:<mm> <AM|PM>"`. -/
def utcSlotLabel (t : Nat) : String :=
  let weekday := weekdayNamesCap.getD (getUTCDay t) ""
  let h := t % msPerDay / 3600000
  let mins := t % 3600000 / 60000
  let dayPeriod := if h < 12 then "AM" else "PM"
  weekday ++ " at " ++ toString (hour12 h) ++ ":" ++ twoDigit mins ++ " " ++ dayPeriod

/-- The timezone model for a zero-offset (UTC) configuration: `ymdInTZ` is
    the UTC civil date, `makeDateInTZ`'s offset correction is zero, and the
    Intl weekday/label formatters are the UTC ones. -/
def utcTZ : TZModel where
  ymd := fun t => civilFromDays (t / msPerDay)
  mkDate := fun y m d hh mm => utcMk y m d hh mm
  dayNameOf := fun t => dayNamesList.getD (getUTCDay t) ""
  labelOf := utcSlotLabel

/-! ## Lead store (src/meta-bot/src/supabase.ts) -/

inductive LeadStatus
  | active
  | booked
  | dead
  | needs_followup
deriving DecidableEq, Repr

/-- The lead row fields the claim/finalize protocol reads and writes. -/
structure Lead where
  status : LeadStatus
  bot_enabled : Bool
  booked_event_id : Option String
  booked_slot_label : Option String
  booked_slot_start : Option Nat
  booked_slot_end : Option Nat
  pending_slot_label : Option String
  pending_slot_start : Option Nat
  pending_slot_end : Option Nat
  pending_claimed_at : Option Nat
  customer_name : Option String
  customer_address : Option String
  customer_phone : Option String
deriving DecidableEq, Repr

/-- JS truthiness of a nullable string: `null`, `undefined` and `""` are
    falsy. -/
def jsTruthyStr (o : Option String) : Bool :=
  match o with
  | none => false
  | some s => !jsIsEmpty s

/-- JS truthiness of a nullable ISO-timestamp field (an ISO string is never
    empty, so present ⇒ truthy). -/
def jsTruthyISO (o : Option Nat) : Bool :=
  o.isSome

/-- `tryClaimPendingSlot(leadId, slot)`: a single conditional `PATCH` whose
    only store-checked filter is `booked_event_id=is.null`; on a match the
    row's pending fields are overwritten and the updated row returned, on no
    match the result set is empty (`null`). -/
def tryClaimPendingSlot (lead : Lead) (slot : Slot) (now : Nat) : Option Lead :=
  if lead.booked_event_id.isSome then none
  else some
    { lead with
      pending_slot_label := some slot.label
      pending_slot_start := some slot.startISO
      pending_slot_end := some slot.endISO
      pending_claimed_at := some now
      status := .active }

/-- The projection `getPendingSlot` returns. -/
structure PendingInfo where
  label : String
  startISO : Nat
  endISO : Nat
  claimedAt : Nat
deriving DecidableEq, Repr

/-- `getPendingSlot(leadId)`: `null` when a pending field is missing or the
    claim is older than 15 minutes (`ageMinutes > 15` ⟺ `now - claimedAt >
    900000` ms; a claim timestamped in the future is not expired). -/
def getPendingSlot (lead : Lead) (now : Nat) : Option PendingInfo :=
  if !jsTruthyStr lead.pending_slot_label ||
      !jsTruthyISO lead.pending_slot_start ||
      !jsTruthyISO lead.pending_slot_end then
    none
  else
    let expired :=
      match lead.pending_claimed_at with
      | some claimedAt => decide (now - claimedAt > 900000)
      | none => false
    if expired then none
    else some
      { label := lead.pending_slot_label.getD ""
        startISO := lead.pending_slot_start.getD 0
        endISO := lead.pending_slot_end.getD 0
        claimedAt := lead.pending_claimed_at.getD now }

/-- `finalizeBookingWithDetails(leadId, eventId, details)`: re-reads the
    lead, throws when no pending slot is set, otherwise moves pending →
    booked, records customer details and clears the pending fields. -/
def finalizeBookingWithDetails (lead : Lead) (eventId : String)
    (address phone : String) : Except String Lead :=
  if !jsTruthyStr lead.pending_slot_label ||
      !jsTruthyISO lead.pending_slot_start ||
      !jsTruthyISO lead.pending_slot_end then
    .error "No pending slot to finalize"
  else .ok
    { lead with
      status := .booked
      booked_event_id := some eventId
      booked_slot_label := lead.pending_slot_label
      booked_slot_start := lead.pending_slot_start
      booked_slot_end := lead.pending_slot_end
      customer_name := none
      customer_address := some address
      customer_phone := some phone
      pending_slot_label := none
      pending_slot_start := none
      pending_slot_end := none
      pending_claimed_at := none }

/-- `releasePendingClaim(leadId)`. -/
def releasePendingClaim (lead : Lead) : Lead :=
  { lead with
    status := .active
    pending_slot_label := none
    pending_slot_start := none
    pending_slot_end := none
    pending_claimed_at := none }

/-- `disableBot(leadId)`. -/
def disableBot (lead : Lead) : Lead :=
  { lead with bot_enabled := false }

/-- The guard at the top of `processPayload`: when `bot_enabled === false`
    the message is ignored and no reply is produced. -/
def processGateReplies (lead : Lead) : Bool :=
  if lead.bot_enabled = false then false else true

/-! ## The finalize path of `processPayload` (phone-collection turn) -/

inductive Step
  | start
  | closing
  | post_book_collect
deriving DecidableEq, Repr

/-- Observable outcome of the phone-collection turn's finalize protocol. -/
structure FinalizeOutcome where
  lead : Lead
  step : Step
  collectStep : Option String
  releasedClaim : Bool
  createdBooking : Bool
deriving DecidableEq, Repr

/-- The finalize protocol run on the phone-collection turn of
    `processPayload` (src/meta-bot/src/index.ts): re-read the pending claim
    (treating an expired one as absent), validate its structure, require
    address and phone, re-verify availability (`stillFree` is the calendar
    collaborator's answer), create the event (`eventResult` is the returned
    id, `none` when the call throws), validate the id, then finalize and
    disable the bot.  Every failure from the staleness check on releases the
    claim and returns to `closing`. -/
def finalizePhoneStep (lead : Lead) (now : Nat) (address phone : Option String)
    (stillFree : Bool) (eventResult : Option String) : FinalizeOutcome :=
  match getPendingSlot lead now with
  | none =>
    { lead := releasePendingClaim lead, step := .closing, collectStep := none
      releasedClaim := true, createdBooking := false }
  | some pending =>
    -- `!pending.label || !pending.startISO || !pending.endISO`; the ISO
    -- fields are non-empty strings by construction, so only the label test
    -- can fire.
    if jsIsEmpty pending.label then
      { lead := releasePendingClaim lead, step := .closing, collectStep := none
        releasedClaim := true, createdBooking := false }
    else if !jsTruthyStr address then
      { lead := lead, step := .post_book_collect, collectStep := some "address"
        releasedClaim := false, createdBooking := false }
    else if !jsTruthyStr phone then
      { lead := lead, step := .post_book_collect, collectStep := some "phone"
        releasedClaim := false, createdBooking := false }
    else if !stillFree then
      { lead := releasePendingClaim lead, step := .closing, collectStep := none
        releasedClaim := true, createdBooking := false }
    else
      match eventResult with
      | none =>
        { lead := releasePendingClaim lead, step := .closing, collectStep := none
          releasedClaim := true, createdBooking := false }
      | some eventId =>
        if jsIsEmpty eventId then
          -- `throw new Error('Invalid event ID...')`, caught by the same
          -- handler as a failed `createEvent` call.
          { lead := releasePendingClaim lead, step := .closing
            collectStep := none, releasedClaim := true, createdBooking := false }
        else
          match finalizeBookingWithDetails lead eventId (address.getD "")
              (phone.getD "") with
          | .ok lead' =>
            { lead := disableBot lead', step := .start, collectStep := none
              releasedClaim := false, createdBooking := true }
          | .error _ =>
            -- `finalizeBookingWithDetails` throwing lands in the same catch
            -- handler: release and restart.
            { lead := releasePendingClaim lead, step := .closing
              collectStep := none, releasedClaim := true, createdBooking := false }

/-! ## Concrete rows and slots used by closed counterexamples/witnesses -/

/-- A fresh, unbooked lead row. -/
def unbookedLead : Lead where
  status := .active
  bot_enabled := true
  booked_event_id := none
  booked_slot_label := none
  booked_slot_start := none
  booked_slot_end := none
  pending_slot_label := none
  pending_slot_start := none
  pending_slot_end := none
  pending_claimed_at := none
  customer_name := none
  customer_address := none
  customer_phone := none

/-- The 12:00–15:00 UTC window of 1970-01-01 (a Thursday), as generated. -/
def slotThu12 : Slot := ⟨"Thursday at 12:00 PM", 43200000, 54000000⟩

/-- The 15:00–18:00 UTC window of 1970-01-01, as generated. -/
def slotThu3 : Slot := ⟨"Thursday at 3:00 PM", 54000000, 64800000⟩

/-- A lead holding a fresh (unexpired) pending claim on `slotThu12`. -/
def pendingLead : Lead :=
  { unbookedLead with
    pending_slot_label := some slotThu12.label
    pending_slot_start := some slotThu12.startISO
    pending_slot_end := some slotThu12.endISO
    pending_claimed_at := some 1000 }

/-- The closed form of every label the zero-offset generator can produce:
    a weekday name followed by the start time of the noon (`12:00 PM`) or
    afternoon (`3:00 PM`) window. -/
def utcLabelOfDay (w : Nat) (late : Bool) : String :=
  weekdayNamesCap.getD w "" ++ " at " ++ (if late then "3" else "12") ++ ":" ++
    "00" ++ " " ++ "PM"

/-! # Theorems -/

/-- C9: the context tracker resets the attempt counter to zero on a
    successful-match turn, increments it by one on an unsuccessful one, and
    the open-ended-question / graceful-handoff predicates hold exactly at
    counts ≥ 2 and ≥ 3 respectively. -/
theorem C9_attempt_counter (context : ConvoContext) (slots : List Slot) :
    (trackOfferedSlots context slots true).attemptCount = some 0 ∧
    (trackOfferedSlots context slots false).attemptCount
      = some (context.attemptCount.getD 0 + 1) ∧
    (shouldAskOpenEnded context = true ↔ 2 ≤ context.attemptCount.getD 0) ∧
    (shouldTriggerGracefulDegradation context = true
      ↔ 3 ≤ context.attemptCount.getD 0) := by
  refine ⟨rfl, rfl, ?_, ?_⟩ <;>
    simp [shouldAskOpenEnded, shouldTriggerGracefulDegradation]

/-- C9 witness: a context with two failed attempts resets on success,
    reaches three on another failure, and trips the open-ended threshold. -/
theorem C9_attempt_counter_witness :
    (trackOfferedSlots { attemptCount := some 2 } [] true).attemptCount
      = some 0 ∧
    (trackOfferedSlots { attemptCount := some 2 } [] false).attemptCount
      = some 3 ∧
    shouldAskOpenEnded { attemptCount := some 2 } = true :=
  ⟨(C9_attempt_counter { attemptCount := some 2 } []).1,
   (C9_attempt_counter { attemptCount := some 2 } []).2.1,
   (C9_attempt_counter { attemptCount := some 2 } []).2.2.1.mpr (by decide)⟩

/-- C10: the store-checked precondition of the conditional claim update is
    only `booked_event_id is null`: with no finalized booking the claim
    succeeds and silently overwrites even an unexpired existing pending
    claim; an empty result occurs exactly when a finalized booking exists. -/
theorem C10_claim_checks_only_booked (lead : Lead) (slot : Slot) (now : Nat) :
    (tryClaimPendingSlot lead slot now = none
      ↔ lead.booked_event_id.isSome = true) ∧
    (∀ t, lead.booked_event_id = none → lead.pending_claimed_at = some t →
      now - t ≤ 900000 →
      ∃ lead', tryClaimPendingSlot lead slot now = some lead' ∧
        lead'.pending_slot_label = some slot.label ∧
        lead'.pending_slot_start = some slot.startISO ∧
        lead'.pending_slot_end = some slot.endISO ∧
        lead'.pending_claimed_at = some now) := by
  constructor
  · unfold tryClaimPendingSlot
    by_cases h : lead.booked_event_id.isSome = true <;> simp [h]
  · intro t hbooked _ _
    have h : tryClaimPendingSlot lead slot now = some
        { lead with
          pending_slot_label := some slot.label
          pending_slot_start := some slot.startISO
          pending_slot_end := some slot.endISO
          pending_claimed_at := some now
          status := .active } := by
      unfold tryClaimPendingSlot
      simp [hbooked]
    exact ⟨_, h, rfl, rfl, rfl, rfl⟩

/-- C10 witness: a concrete unbooked lead with a fresh pending claim is
    overwritten by a second claim. -/
theorem C10_claim_checks_only_booked_witness :
    ∃ lead', tryClaimPendingSlot pendingLead slotThu3 2000 = some lead' ∧
      lead'.pending_slot_label = some slotThu3.label ∧
      lead'.pending_slot_start = some slotThu3.startISO ∧
      lead'.pending_slot_end = some slotThu3.endISO ∧
      lead'.pending_claimed_at = some 2000 :=
  (C10_claim_checks_only_booked pendingLead slotThu3 2000).2 1000 rfl rfl
    (by decide)

/-- C1: contrary to the claim, two serialized claim attempts on the same
    unbooked lead for different slots BOTH succeed — the conditional update
    only checks `booked_event_id`, so the second attempt overwrites the
    first claim instead of observing an empty result.  (The function's own
    comment documents the missing second condition, so this is recorded as
    a code bug rather than a spec error.) -/
theorem C1_both_concurrent_claims_succeed :
    ∃ lead1 lead2,
      tryClaimPendingSlot unbookedLead slotThu12 1000 = some lead1 ∧
      tryClaimPendingSlot lead1 slotThu3 2000 = some lead2 ∧
      lead1.pending_slot_label = some "Thursday at 12:00 PM" ∧
      lead2.pending_slot_label = some "Thursday at 3:00 PM" ∧
      2000 - 1000 ≤ 900000 :=
  ⟨_, _, rfl, rfl, rfl, rfl, by decide⟩

/-- C2: a pending claim older than the 15-minute TTL is treated as absent
    at finalize time — `getPendingSlot` returns `null` and the finalize path
    releases the claim and returns to the offer (`closing`) state without
    creating a booking. -/
theorem C2_expired_claim_never_finalized (lead : Lead) (now t : Nat)
    (address phone : Option String) (stillFree : Bool)
    (eventResult : Option String)
    (hlabel : jsTruthyStr lead.pending_slot_label = true)
    (hstart : jsTruthyISO lead.pending_slot_start = true)
    (hend : jsTruthyISO lead.pending_slot_end = true)
    (hclaimed : lead.pending_claimed_at = some t)
    (hexpired : 900000 < now - t) :
    getPendingSlot lead now = none ∧
    finalizePhoneStep lead now address phone stillFree eventResult =
      { lead := releasePendingClaim lead, step := .closing, collectStep := none
        releasedClaim := true, createdBooking := false } := by
  have hgps : getPendingSlot lead now = none := by
    unfold getPendingSlot
    rw [hlabel, hstart, hend, hclaimed]
    simp [hexpired]
  refine ⟨hgps, ?_⟩
  unfold finalizePhoneStep
  rw [hgps]

/-- C2 witness: a claim made at t=1000 ms, finalized at t=1000000 ms
    (≈16.6 minutes later), is released. -/
theorem C2_expired_claim_never_finalized_witness :
    getPendingSlot pendingLead 1000000 = none ∧
    finalizePhoneStep pendingLead 1000000 (some "10 Main St") (some "555-0100")
        true (some "evt1") =
      { lead := releasePendingClaim pendingLead, step := .closing
        collectStep := none, releasedClaim := true, createdBooking := false } :=
  C2_expired_claim_never_finalized pendingLead 1000000 1000
    (some "10 Main St") (some "555-0100") true (some "evt1")
    (by decide) (by decide) (by decide) rfl (by decide)

/-- C3: when finalize succeeds for a lead, the pending fields are cleared,
    the booked fields carry exactly the slot that was claimed as pending,
    the event id is recorded, and the bot is disabled so the
    `processPayload` gate produces no reply on subsequent turns. -/
theorem C3_finalize_success_postcondition (lead0 lead1 : Lead) (s : Slot)
    (tClaim tNow : Nat) (address phone eventId : String)
    (hclaim : tryClaimPendingSlot lead0 s tClaim = some lead1)
    (hlabel : jsIsEmpty s.label = false)
    (hfresh : tNow - tClaim ≤ 900000)
    (haddr : jsIsEmpty address = false)
    (hphone : jsIsEmpty phone = false)
    (heid : jsIsEmpty eventId = false) :
    (finalizePhoneStep lead1 tNow (some address) (some phone) true
        (some eventId)).createdBooking = true ∧
    (finalizePhoneStep lead1 tNow (some address) (some phone) true
        (some eventId)).step = .start ∧
    (finalizePhoneStep lead1 tNow (some address) (some phone) true
        (some eventId)).lead =
      disableBot
        { lead1 with
          status := .booked
          booked_event_id := some eventId
          booked_slot_label := some s.label
          booked_slot_start := some s.startISO
          booked_slot_end := some s.endISO
          customer_name := none
          customer_address := some address
          customer_phone := some phone
          pending_slot_label := none
          pending_slot_start := none
          pending_slot_end := none
          pending_claimed_at := none } ∧
    (finalizePhoneStep lead1 tNow (some address) (some phone) true
        (some eventId)).lead.bot_enabled = false ∧
    processGateReplies (finalizePhoneStep lead1 tNow (some address)
        (some phone) true (some eventId)).lead = false := by
  have hb : ¬(lead0.booked_event_id.isSome = true) := by
    intro h
    rw [tryClaimPendingSlot, if_pos h] at hclaim
    cases hclaim
  rw [tryClaimPendingSlot, if_neg hb, Option.some_inj] at hclaim
  subst hclaim
  unfold finalizePhoneStep getPendingSlot finalizeBookingWithDetails
  simp [jsTruthyStr, jsTruthyISO, hlabel, haddr, hphone, heid,
    Nat.not_lt.mpr hfresh, disableBot, processGateReplies]

/-- C3 witness: a concrete claim-then-finalize run books the claimed slot
    and disables the bot. -/
theorem C3_finalize_success_postcondition_witness :
    tryClaimPendingSlot unbookedLead slotThu12 1000 = some pendingLead ∧
    (finalizePhoneStep pendingLead 200000 (some "10 Main St")
        (some "555-0100") true (some "evt1")).createdBooking = true ∧
    (finalizePhoneStep pendingLead 200000 (some "10 Main St")
        (some "555-0100") true (some "evt1")).lead.booked_slot_label
      = some "Thursday at 12:00 PM" ∧
    (finalizePhoneStep pendingLead 200000 (some "10 Main St")
        (some "555-0100") true (some "evt1")).lead.bot_enabled = false := by
  have h := C3_finalize_success_postcondition unbookedLead pendingLead
    slotThu12 1000 200000 "10 Main St" "555-0100" "evt1" rfl rfl (by decide)
    rfl rfl rfl
  refine ⟨rfl, h.1, ?_, h.2.2.2.1⟩
  rw [h.2.2.1]
  rfl

/-- C6: a bare confirmation auto-selects the sole offered slot, selects the
    first slot when both offered labels carry the same displayed time, and
    requires an explicit choice when the displayed times differ. -/
theorem C6_bare_confirmation (text : String)
    (hconfirm : isConfirmWord (clean text) = true) :
    (∀ s : Slot, tryMatchSlot text [s]
      = { matched := true, slot := some s }) ∧
    (∀ (s1 s2 : Slot) (rest : List Slot),
      labelDisplayedTime s1.label = labelDisplayedTime s2.label →
      tryMatchSlot text (s1 :: s2 :: rest)
        = { matched := true, slot := some s1 }) ∧
    (∀ (s1 s2 : Slot) (rest : List Slot),
      labelDisplayedTime s1.label ≠ labelDisplayedTime s2.label →
      tryMatchSlot text (s1 :: s2 :: rest)
        = { matched := false, slot := none, requiresChoice := true }) := by
  refine ⟨?_, ?_, ?_⟩
  · intro s
    unfold tryMatchSlot
    simp [hconfirm, confirmStage]
  · intro s1 s2 rest h
    unfold tryMatchSlot
    simp [hconfirm, confirmStage, h]
  · intro s1 s2 rest h
    unfold tryMatchSlot
    simp [hconfirm, confirmStage, h]

/-- C6 witness: "sounds good" against one slot, two same-time slots, and two
    different-time slots. -/
theorem C6_bare_confirmation_witness :
    tryMatchSlot "sounds good" [slotThu12]
      = { matched := true, slot := some slotThu12 } ∧
    tryMatchSlot "sounds good"
        [⟨"Saturday at 12:00 PM", 10, 20⟩, ⟨"Saturday at 12:00 PM", 30, 40⟩]
      = { matched := true, slot := some ⟨"Saturday at 12:00 PM", 10, 20⟩ } ∧
    tryMatchSlot "sounds good"
        [⟨"Saturday at 12:00 PM", 10, 20⟩, ⟨"Saturday at 3:00 PM", 30, 40⟩]
      = { matched := false, slot := none, requiresChoice := true } := by
  have h := C6_bare_confirmation "sounds good" rfl
  exact ⟨h.1 _, h.2.1 _ _ _ rfl, h.2.2 _ _ _ (by decide)⟩

/-- C4 counterexample: "tomorrow at 3:00" contains a time-of-day indicator
    yet the extractor returns tomorrow's date — relative expressions are
    parsed before the guard, so the claimed unconditional rejection fails. -/
theorem C4_counterexample :
    hasTimeIndicator (clean "tomorrow at 3:00") = true ∧
    extractRequestedDate utcTZ.ymd "tomorrow at 3:00" 0 "America/Denver"
      = some 129600000 ∧
    129600000 = setNoonPlusDays 0 1 := by
  exact ⟨rfl, rfl, rfl⟩

/-- C4 (amended): a text containing a time-of-day indicator is rejected
    provided it matches no relative expression — the relative branch
    (`today`, `tomorrow`, weekday names) takes precedence over the guard. -/
theorem C4_time_guard_rejects (tzYmd : Nat → Ymd) (text : String) (now : Nat)
    (timeZone : String)
    (hind : hasTimeIndicator (clean text) = true)
    (hrel : parseRelativeDate (clean text) now timeZone = none) :
    extractRequestedDate tzYmd text now timeZone = none := by
  unfold extractRequestedDate
  simp [hrel, hind]

/-- C4 witness: "at 3" has a time indicator, no relative expression, and is
    rejected. -/
theorem C4_time_guard_rejects_witness :
    extractRequestedDate utcTZ.ymd "at 3" 0 "America/Denver" = none :=
  C4_time_guard_rejects utcTZ.ymd "at 3" 0 "America/Denver" rfl rfl

/-- C5 counterexample: "tomorrow and next monday" contains a
    `next`-qualified weekday, yet the extractor resolves it to tomorrow
    (1 day out, not 7–13): the `tomorrow` branch runs first. -/
theorem C5_counterexample :
    containsSubstr (clean "tomorrow and next monday") "monday" = true ∧
    containsSubstr (clean "tomorrow and next monday") "next" = true ∧
    extractRequestedDate utcTZ.ymd "tomorrow and next monday" 0 "UTC"
      = some (setNoonPlusDays 0 1) ∧
    setNoonPlusDays 0 1 / msPerDay = 0 / msPerDay + 1 ∧ ¬(7 ≤ 1) :=
  ⟨rfl, rfl, rfl, rfl, by decide⟩

/-- C5 (amended): on normalised text free of the higher-precedence relative
    terms `today`/`tomorrow`, a weekday with `next` anywhere in the text
    resolves 7–13 days out, and a weekday without `next` (unqualified or
    `this`-qualified) resolves 0–6 days out. -/
theorem C5_weekday_resolution (tzYmd : Nat → Ymd) (text : String) (now : Nat)
    (timeZone : String)
    (hnorm : clean text = text)
    (hday : ∃ p ∈ dayNamePairs, containsSubstr text p.1 = true)
    (htom : containsSubstr text "tomorrow" = false)
    (htod : containsSubstr text "today" = false) :
    (containsSubstr text "next" = true →
      ∃ k, 7 ≤ k ∧ k ≤ 13 ∧
        extractRequestedDate tzYmd text now timeZone
          = some (setNoonPlusDays now k)) ∧
    (containsSubstr text "next" = false →
      ∃ k, k ≤ 6 ∧
        extractRequestedDate tzYmd text now timeZone
          = some (setNoonPlusDays now k)) := by
  have hfind : (dayNamePairs.find? (fun p => containsSubstr text p.1)).isSome := by
    rw [List.find?_isSome]
    obtain ⟨p, hp, hc⟩ := hday
    exact ⟨p, hp, hc⟩
  obtain ⟨q, hq⟩ := Option.isSome_iff_exists.mp hfind
  have hbase7 : (q.2 + 7 - getUTCDay now) % 7 < 7 := Nat.mod_lt _ (by decide)
  constructor
  · intro hnext
    refine ⟨if (q.2 + 7 - getUTCDay now) % 7 = 0 then 7
      else (q.2 + 7 - getUTCDay now) % 7 + 7, ?_, ?_, ?_⟩
    · split <;> omega
    · split <;> omega
    · have hrel : parseRelativeDate text now timeZone
          = some (setNoonPlusDays now
            (if (q.2 + 7 - getUTCDay now) % 7 = 0 then 7
             else (q.2 + 7 - getUTCDay now) % 7 + 7)) := by
        unfold parseRelativeDate
        rw [hnorm]
        simp [hq, htom, htod, hnext]
        by_cases h0 : (q.2 + 7 - getUTCDay now) % 7 = 0
        · simp [h0]
        · simp [h0, hbase7]
      unfold extractRequestedDate
      rw [hnorm]
      simp [hrel]
  · intro hnext
    refine ⟨(q.2 + 7 - getUTCDay now) % 7, by omega, ?_⟩
    have hrel : parseRelativeDate text now timeZone
        = some (setNoonPlusDays now ((q.2 + 7 - getUTCDay now) % 7)) := by
      unfold parseRelativeDate
      rw [hnorm]
      simp [hq, htom, htod, hnext]
    unfold extractRequestedDate
    rw [hnorm]
    simp [hrel]

/-- C5 witness: at epoch 0 (a Thursday), "next friday" resolves 8 days out
    and "friday" resolves 1 day out. -/
theorem C5_weekday_resolution_witness :
    (∃ k, 7 ≤ k ∧ k ≤ 13 ∧
      extractRequestedDate utcTZ.ymd "next friday" 0 "UTC"
        = some (setNoonPlusDays 0 k)) ∧
    (∃ k, k ≤ 6 ∧
      extractRequestedDate utcTZ.ymd "friday" 0 "UTC"
        = some (setNoonPlusDays 0 k)) :=
  ⟨(C5_weekday_resolution utcTZ.ymd "next friday" 0 "UTC" rfl
      ⟨("friday", 5), by decide, rfl⟩ rfl rfl).1 rfl,
   (C5_weekday_resolution utcTZ.ymd "friday" 0 "UTC" rfl
      ⟨("friday", 5), by decide, rfl⟩ rfl rfl).2 rfl⟩

/-- Every slot `dedupeSlotsAux` emits has a key outside `seen`. -/
theorem dedupeSlotsAux_key_not_seen (l : List Slot) :
    ∀ (seen : List (Nat × Nat)), ∀ s ∈ dedupeSlotsAux seen l,
      (s.startISO, s.endISO) ∉ seen := by
  induction l with
  | nil => intro seen s hs; simp [dedupeSlotsAux] at hs
  | cons a t ih =>
    intro seen s hs
    unfold dedupeSlotsAux at hs
    by_cases hseen : seen.contains (a.startISO, a.endISO)
    · rw [if_pos hseen] at hs
      exact ih seen s hs
    · rw [if_neg hseen] at hs
      rcases List.mem_cons.mp hs with rfl | h
      · intro hmem
        exact hseen (List.elem_iff.mpr hmem)
      · intro hmem
        exact ih _ s h (List.mem_cons_of_mem _ hmem)

/-- `dedupeSlotsAux` emits pairwise-distinct `(start, end)` keys. -/
theorem dedupeSlotsAux_pairwise (l : List Slot) :
    ∀ seen, List.Pairwise
      (fun a b => ¬(a.startISO = b.startISO ∧ a.endISO = b.endISO))
      (dedupeSlotsAux seen l) := by
  induction l with
  | nil => intro seen; simp [dedupeSlotsAux]
  | cons a t ih =>
    intro seen
    unfold dedupeSlotsAux
    by_cases hseen : seen.contains (a.startISO, a.endISO)
    · rw [if_pos hseen]; exact ih seen
    · rw [if_neg hseen]
      refine List.Pairwise.cons ?_ (ih _)
      intro b hb hab
      have hnot := dedupeSlotsAux_key_not_seen t _ b hb
      exact hnot (by rw [← hab.1, ← hab.2]; exact List.mem_cons_self _ _)

/-- `dedupeSlotsAux` only keeps elements of its input. -/
theorem dedupeSlotsAux_subset (l : List Slot) :
    ∀ seen, ∀ s ∈ dedupeSlotsAux seen l, s ∈ l := by
  induction l with
  | nil => intro seen s hs; simp [dedupeSlotsAux] at hs
  | cons a t ih =>
    intro seen s hs
    unfold dedupeSlotsAux at hs
    by_cases hseen : seen.contains (a.startISO, a.endISO)
    · rw [if_pos hseen] at hs
      exact List.mem_cons_of_mem _ (ih seen s hs)
    · rw [if_neg hseen] at hs
      rcases List.mem_cons.mp hs with rfl | h
      · exact List.mem_cons_self _ _
      · exact List.mem_cons_of_mem _ (ih _ s h)

/-- Slots accumulated by the candidate loop come from the accumulator or are
    built from one of the candidates. -/
theorem addCandidates_mem (tz : TZModel) (busy : List (Nat × Nat))
    (maxSlots : Nat) (cands : List (Nat × Nat)) :
    ∀ out, ∀ s ∈ addCandidates tz busy maxSlots cands out,
      s ∈ out ∨ ∃ c ∈ cands, s = ⟨tz.labelOf c.1, c.1, c.2⟩ := by
  induction cands with
  | nil => intro out s hs; exact Or.inl hs
  | cons c rest ih =>
    intro out s hs
    unfold addCandidates at hs
    rcases ih _ s hs with h | ⟨c', hc', rfl⟩
    · by_cases hcond : (!busy.any (fun b => overlapsDates c.1 c.2 b.1 b.2) &&
          !out.any (fun s => s.startISO = c.1 && s.endISO = c.2) &&
          out.length < maxSlots) = true
      · rw [if_pos hcond] at h
        rcases List.mem_append.mp h with h' | h'
        · exact Or.inl h'
        · rcases List.mem_singleton.mp h' with rfl
          exact Or.inr ⟨c, List.mem_cons_self _ _, rfl⟩
      · rw [if_neg hcond] at h
        exact Or.inl h
    · exact Or.inr ⟨c', List.mem_cons_of_mem _ hc', rfl⟩

/-- Slots accumulated by the day loop come from the accumulator or from some
    day's candidate list. -/
theorem genDays_mem (tz : TZModel) (busy : List (Nat × Nat))
    (now rangeStart : Nat) (excludeDays : List String) (maxSlots : Nat)
    (idxs : List Nat) :
    ∀ out, ∀ s ∈ genDays tz busy now rangeStart excludeDays maxSlots idxs out,
      s ∈ out ∨ ∃ i ∈ idxs, ∃ c ∈ dayCandidates tz now (rangeStart + i * msPerDay),
        s = ⟨tz.labelOf c.1, c.1, c.2⟩ := by
  induction idxs with
  | nil => intro out s hs; exact Or.inl hs
  | cons i rest ih =>
    intro out s hs
    unfold genDays at hs
    by_cases hexcl : excludeDays.contains (tz.dayNameOf (rangeStart + i * msPerDay))
    · rw [if_pos hexcl] at hs
      rcases ih _ s hs with h | ⟨i', hi', hc⟩
      · exact Or.inl h
      · exact Or.inr ⟨i', List.mem_cons_of_mem _ hi', hc⟩
    · rw [if_neg hexcl] at hs
      rcases ih _ s hs with h | ⟨i', hi', hc⟩
      · rcases addCandidates_mem tz busy maxSlots _ _ s h with h' | ⟨c, hc, rfl⟩
        · exact Or.inl h'
        · exact Or.inr ⟨i, List.mem_cons_self _ _, c, hc, rfl⟩
      · exact Or.inr ⟨i', List.mem_cons_of_mem _ hi', hc⟩

/-- Day candidates have already been filtered to end strictly after `now`. -/
theorem dayCandidates_end_future (tz : TZModel) (now dayMs : Nat) :
    ∀ c ∈ dayCandidates tz now dayMs, now < c.2 := by
  intro c hc
  unfold dayCandidates at hc
  have := (List.mem_filter.mp hc).2
  simpa using this

/-- C8: every slot set returned by the fixed-window slot generator has
    pairwise-distinct (start, end) instant pairs, and every slot's end lies
    strictly after the generation instant — for any timezone model, busy
    list and search parameters. -/
theorem C8_generated_slot_invariants (tz : TZModel) (busy : List (Nat × Nat))
    (now days maxSlots startOffset : Nat) (excludeDays : List String) :
    List.Pairwise
      (fun a b => ¬(a.startISO = b.startISO ∧ a.endISO = b.endISO))
      (generateTwoSlotsFixedWindows tz busy now days excludeDays maxSlots
        startOffset) ∧
    ∀ s ∈ generateTwoSlotsFixedWindows tz busy now days excludeDays maxSlots
        startOffset, now < s.endISO := by
  constructor
  · exact dedupeSlotsAux_pairwise _ _
  · intro s hs
    have hsub := dedupeSlotsAux_subset _ _ s hs
    rcases genDays_mem tz busy now _ excludeDays maxSlots _ _ s hsub with
      h | ⟨i, _, c, hc, rfl⟩
    · simp at h
    · exact dayCandidates_end_future tz now _ c hc

/-- C8 witness: the generator run at epoch 0 over one day yields slots whose
    ends are in the future. -/
theorem C8_generated_slot_invariants_witness :
    0 < slotThu12.endISO :=
  (C8_generated_slot_invariants utcTZ [] 0 1 999 0 []).2 slotThu12 (by decide)

/-- A generated (lowercased) label contains a weekday token exactly when it
    is the label's own weekday. -/
theorem utcLabel_day_token_toLower : ∀ w < 7, ∀ late : Bool,
    ∀ d ∈ dayNamesList,
      containsSubstr (jsToLower (utcLabelOfDay w late)) d
        = decide (d = dayNamesList.getD w "") := by decide

/-- Same containment fact for the `clean`-normalised label (the form the
    matcher applies to the submitted text). -/
theorem utcLabel_day_token_clean : ∀ w < 7, ∀ late : Bool,
    ∀ d ∈ dayNamesList,
      containsSubstr (clean (utcLabelOfDay w late)) d
        = decide (d = dayNamesList.getD w "") := by decide

/-- No generated label is (or contains) a bare confirmation word. -/
theorem utcLabel_not_confirm : ∀ w < 7, ∀ late : Bool,
    isConfirmWord (clean (utcLabelOfDay w late)) = false := by decide

/-- No generated label is the literal index token "1" or "2". -/
theorem utcLabel_not_index : ∀ w < 7, ∀ late : Bool,
    (clean (utcLabelOfDay w late) = "1") = False ∧
    (clean (utcLabelOfDay w late) = "2") = False := by decide

/-- Each weekday token is a member of the day-name list. -/
theorem dayTok_mem : ∀ w < 7, dayNamesList.getD w "" ∈ dayNamesList := by
  decide

/-- Weekday tokens are pairwise distinct. -/
theorem dayTok_inj : ∀ w < 7, ∀ w' < 7,
    ((dayNamesList.getD w "" = dayNamesList.getD w' "") ↔ w = w') := by decide

/-- The noon window start is 12:00 UTC on its day. -/
theorem utcMk_mod_noon (y m d : Nat) :
    utcMk y m d 12 0 % msPerDay = 43200000 := by
  unfold utcMk msPerDay
  omega

/-- The afternoon window start is 15:00 UTC on its day. -/
theorem utcMk_mod_afternoon (y m d : Nat) :
    utcMk y m d 15 0 % msPerDay = 54000000 := by
  unfold utcMk msPerDay
  omega

/-- The label formatter on a 12:00 UTC instant. -/
theorem utcSlotLabel_noon (t : Nat) (ht : t % msPerDay = 43200000) :
    utcSlotLabel t = utcLabelOfDay (getUTCDay t) false := by
  have hmins : t % 3600000 = 0 := by
    have hdvd := Nat.mod_mod_of_dvd t (show (3600000 : Nat) ∣ msPerDay from ⟨24, rfl⟩)
    rw [ht] at hdvd
    omega
  unfold utcSlotLabel utcLabelOfDay
  rw [ht, hmins]
  rfl

/-- The label formatter on a 15:00 UTC instant. -/
theorem utcSlotLabel_afternoon (t : Nat) (ht : t % msPerDay = 54000000) :
    utcSlotLabel t = utcLabelOfDay (getUTCDay t) true := by
  have hmins : t % 3600000 = 0 := by
    have hdvd := Nat.mod_mod_of_dvd t (show (3600000 : Nat) ∣ msPerDay from ⟨24, rfl⟩)
    rw [ht] at hdvd
    omega
  unfold utcSlotLabel utcLabelOfDay
  rw [ht, hmins]
  rfl

/-- Every slot the zero-offset generator emits carries the closed-form label
    of its own start instant's weekday. -/
theorem generated_label_shape (busy : List (Nat × Nat))
    (now days maxSlots startOffset : Nat) (excludeDays : List String) :
    ∀ s ∈ generateTwoSlotsFixedWindows utcTZ busy now days excludeDays
        maxSlots startOffset,
      ∃ late : Bool, s.label = utcLabelOfDay (getUTCDay s.startISO) late := by
  intro s hs
  have hsub := dedupeSlotsAux_subset _ _ s hs
  rcases genDays_mem utcTZ busy now _ excludeDays maxSlots _ _ s hsub with
    h | ⟨i, _, c, hc, rfl⟩
  · simp at h
  · unfold dayCandidates at hc
    have hc2 := (List.mem_filter.mp hc).1
    simp only [List.mem_cons, List.not_mem_nil, or_false] at hc2
    rcases hc2 with h1 | h2
    · subst h1
      exact ⟨false, utcSlotLabel_noon _ (utcMk_mod_noon _ _ _)⟩
    · subst h2
      exact ⟨true, utcSlotLabel_afternoon _ (utcMk_mod_afternoon _ _ _)⟩

/-- `find?` returns the first element satisfying the predicate. -/
theorem find?_append_first {α : Type} (p : α → Bool) (pre : List α) (a : α)
    (post : List α) (hpre : ∀ x ∈ pre, p x = false) (ha : p a = true) :
    List.find? p (pre ++ a :: post) = some a := by
  induction pre with
  | nil => simp [List.find?_cons, ha]
  | cons x t ih =>
    rw [List.cons_append, List.find?_cons_of_neg _ (by
      simp [hpre x (List.mem_cons_self _ _)])]
    exact ih (fun y hy => hpre y (List.mem_cons_of_mem _ hy))

/-- The day-name stage returns the `find?` result of the unique weekday
    token contained in the submitted text. -/
theorem dayNameStage_unique (l : List String) (normalized : String)
    (slots : List Slot) (tok : String) (s : Slot)
    (hl : ∀ d ∈ l, containsSubstr normalized d = decide (d = tok))
    (htok : tok ∈ l)
    (hfind : slots.find?
      (fun slot => containsSubstr (jsToLower slot.label) tok) = some s) :
    dayNameStage l normalized slots = some s := by
  induction l with
  | nil => cases htok
  | cons d rest ih =>
    unfold dayNameStage
    by_cases hd : d = tok
    · subst hd
      rw [hl d (List.mem_cons_self _ _)]
      simp only [decide_eq_true_eq, if_pos rfl, decide_True, if_true]
      rw [hfind]
    · rw [hl d (List.mem_cons_self _ _), decide_eq_false hd]
      simp only [Bool.false_eq_true, if_false]
      exact ih (fun d' hd' => hl d' (List.mem_cons_of_mem _ hd'))
        (List.mem_of_ne_of_mem (fun h => hd h.symm) htok)

/-- Round-trip of the matcher on well-formed slot lists with pairwise
    distinct weekdays: the exact label of a member resolves to that member
    (at the day-name stage). -/
theorem tryMatch_label_roundtrip (L : List Slot) (s : Slot)
    (hshape : ∀ t ∈ L, ∃ late : Bool,
      t.label = utcLabelOfDay (getUTCDay t.startISO) late)
    (hdistinct : List.Pairwise
      (fun a b => getUTCDay a.startISO ≠ getUTCDay b.startISO) L)
    (hmem : s ∈ L) :
    tryMatchSlot s.label L = { matched := true, slot := some s } := by
  obtain ⟨lateS, hlabelS⟩ := hshape s hmem
  have hwS : getUTCDay s.startISO < 7 := Nat.mod_lt _ (by decide)
  obtain ⟨pre, post, rfl⟩ := List.append_of_mem hmem
  have hpairs := List.pairwise_append.mp hdistinct
  have hpre : ∀ x ∈ pre, getUTCDay x.startISO ≠ getUTCDay s.startISO :=
    fun x hx => hpairs.2.2 x hx s (List.mem_cons_self _ _)
  have hfind : (pre ++ s :: post).find?
      (fun slot => containsSubstr (jsToLower slot.label)
        (dayNamesList.getD (getUTCDay s.startISO) "")) = some s := by
    apply find?_append_first
    · intro x hx
      obtain ⟨lx, hlx⟩ := hshape x (List.mem_append_left _ hx)
      have hwx : getUTCDay x.startISO < 7 := Nat.mod_lt _ (by decide)
      rw [hlx, utcLabel_day_token_toLower _ hwx lx _ (dayTok_mem _ hwS)]
      exact decide_eq_false
        (fun h => hpre x hx ((dayTok_inj _ hwS _ hwx).mp h).symm)
    · rw [hlabelS, utcLabel_day_token_toLower _ hwS lateS _ (dayTok_mem _ hwS)]
      exact decide_eq_true rfl
  have hday : dayNameStage dayNamesList (clean s.label) (pre ++ s :: post)
      = some s := by
    apply dayNameStage_unique _ _ _ (dayNamesList.getD (getUTCDay s.startISO) "")
    · intro d hd
      rw [hlabelS]
      exact utcLabel_day_token_clean _ hwS lateS d hd
    · exact dayTok_mem _ hwS
    · exact hfind
  have hconf : isConfirmWord (clean s.label) = false := by
    rw [hlabelS]; exact utcLabel_not_confirm _ hwS lateS
  have hidx := utcLabel_not_index _ hwS lateS
  rw [← hlabelS] at hidx
  unfold tryMatchSlot laterStages
  simp [hconf, hidx.1, hidx.2, hday]

/-- C7 counterexample: the generator offers both windows of one day; the
    exact label of the second slot resolves — through the day-name stage,
    which precedes exact-label matching — to the FIRST slot, not to itself,
    refuting the round-trip claim as stated. -/
theorem C7_counterexample :
    generateTwoSlotsFixedWindows utcTZ [] 0 1 [] 999 0
      = [slotThu12, slotThu3] ∧
    slotThu12 ≠ slotThu3 ∧
    tryMatchSlot slotThu3.label (generateTwoSlotsFixedWindows utcTZ [] 0 1 [] 999 0)
      = { matched := true, slot := some slotThu12 } := by
  refine ⟨by decide, by decide, by decide⟩

/-- C7 (amended): for slot sets produced by the generator whose slots lie
    on pairwise-distinct weekdays, submitting a slot's exact label resolves
    back to that same slot.  (When two offered slots share a weekday the
    matcher instead returns the first slot of that weekday, as the
    counterexample shows.) -/
theorem C7_roundtrip_distinct_days (busy : List (Nat × Nat))
    (now days maxSlots startOffset : Nat) (excludeDays : List String)
    (s : Slot)
    (hdistinct : List.Pairwise
      (fun a b => getUTCDay a.startISO ≠ getUTCDay b.startISO)
      (generateTwoSlotsFixedWindows utcTZ busy now days excludeDays maxSlots
        startOffset))
    (hmem : s ∈ generateTwoSlotsFixedWindows utcTZ busy now days excludeDays
      maxSlots startOffset) :
    tryMatchSlot s.label
      (generateTwoSlotsFixedWindows utcTZ busy now days excludeDays maxSlots
        startOffset)
      = { matched := true, slot := some s } :=
  tryMatch_label_roundtrip _ s
    (generated_label_shape busy now days maxSlots startOffset excludeDays)
    hdistinct hmem

/-- C7 witness: with the Thursday noon window busy, the generator offers a
    Thursday and a Friday slot; the Friday label round-trips to the Friday
    slot. -/
theorem C7_roundtrip_distinct_days_witness :
    tryMatchSlot (Slot.label ⟨"Friday at 12:00 PM", 129600000, 140400000⟩)
      (generateTwoSlotsFixedWindows utcTZ [(43200000, 54000000)] 0 2 [] 2 0)
      = { matched := true,
          slot := some ⟨"Friday at 12:00 PM", 129600000, 140400000⟩ } :=
  C7_roundtrip_distinct_days [(43200000, 54000000)] 0 2 2 0 [] _
    (by decide) (by decide)

end Autobot
